import Mathlib

/-!
Shallow embedding of the nsight port-signature matcher (src/src/main.go).

Ports are Go ints, modelled as Int.  The Go hash set map[int]struct{} is
modelled as Finset Int: the only operations the program performs on it are
insertion and membership.  Slices of ports are List Int.
-/

namespace Nsight

/-- ANSI style fragment, from the constant block of main.go. -/
def bold : String := "\x1b[1m"

/-- ANSI style fragment, from the constant block of main.go. -/
def green : String := "\x1b[32m"

/-- ANSI style fragment, from the constant block of main.go. -/
def yellow : String := "\x1b[33m"

/-- ANSI style fragment, from the constant block of main.go. -/
def cyan : String := "\x1b[36m"

/-- ANSI style fragment, from the constant block of main.go. -/
def faint : String := "\x1b[2m"

/-- ANSI style fragment, from the constant block of main.go. -/
def reset : String := "\x1b[0m"

/-- Embedding of func style: applies colour + bold (if colour provided) or
faint.  The Go global noColor is passed explicitly. -/
def style (text : String) (colour : String) (boldOn : Bool) (faintOn : Bool)
    (noColor : Bool) : String :=
  if noColor then text
  else if faintOn then faint ++ text ++ reset
  else (if boldOn then bold else "") ++ (if colour = "" then "" else colour)
    ++ text ++ reset

/-- Embedding of the sort.Ints call inside joinPorts.  Go's sort produces the
unique ascending reordering of an int slice, which insertionSort computes. -/
def sortPorts (ports : List Int) : List Int :=
  List.insertionSort (fun a b => a ≤ b) ports

/-- Embedding of func joinPorts: sorts the ports ascending, styles each one,
joins with a comma. -/
def joinPorts (ports : List Int) (colour : String) (boldOn : Bool)
    (faintOn : Bool) (noColor : Bool) : String :=
  String.intercalate ", "
    ((sortPorts ports).map (fun p => style (toString p) colour boldOn faintOn noColor))

/-- Embedding of type Signature: a composite service signature. -/
structure Signature where
  Name : String
  Required : List Int
  Optional : List Int
deriving DecidableEq

/-- Embedding of func knownSignatures: the built-in catalog, in declaration
order, transcribed entry by entry from main.go. -/
def knownSignatures : List Signature :=
  [⟨"SMB / NetBIOS file share", [139, 445], []⟩,
   ⟨"Active Directory Domain Controller", [53, 88, 389, 445, 464], [636, 3268, 3269, 5985, 9389]⟩,
   ⟨"Windows RPC services (EPM + dynamic RPC)", [135], []⟩,
   ⟨"Windows Remote Management / WinRM", [5985], [5986]⟩,
   ⟨"NFS server (rpcbind + nfsd)", [111, 2049], [20048, 4045, 4049]⟩,
   ⟨"FTP", [21], [20]⟩,
   ⟨"Mail stack (SMTP + POP)", [25, 110], []⟩,
   ⟨"Mail stack (SMTP + IMAP)", [25, 143], []⟩,
   ⟨"Mail stack (SMTP + IMAPS)", [25, 993], []⟩,
   ⟨"SIP / VoIP server", [5060], []⟩,
   ⟨"Network printer (JetDirect + LPD)", [515, 9100], []⟩,
   ⟨"Oracle Database", [1521], [1522, 2483, 2484]⟩,
   ⟨"MySQL / MariaDB", [3306], [33060]⟩,
   ⟨"Microsoft SQL Server", [1433], []⟩,
   ⟨"PostgreSQL", [5432], [5433]⟩,
   ⟨"IBM Db2 Database", [50000], [50001, 50050]⟩,
   ⟨"SAP NetWeaver Application Server", [3200, 3300], [3600, 8000, 8001, 3299]⟩,
   ⟨"Elasticsearch", [9200], [9300]⟩,
   ⟨"Splunk Enterprise", [8000, 8089, 9997], [8088]⟩,
   ⟨"VMware vCenter Server", [443], [5480, 902]⟩,
   ⟨"MongoDB Database", [27017], [27018, 27019]⟩,
   ⟨"Redis", [6379], [26379, 16379]⟩,
   ⟨"Apache Cassandra", [9042], [7000, 9160]⟩]

/-- Embedding of func hasAll: true iff every required port is in the set. -/
def hasAll (set : Finset Int) (req : List Int) : Bool :=
  req.all (fun p => decide (p ∈ set))

/-- Embedding of func presentOptional: the optional ports found in the set,
kept in the order of the optional list. -/
def presentOptional (set : Finset Int) (opt : List Int) : List Int :=
  opt.filter (fun p => decide (p ∈ set))

/-- Embedding of func diff: the elements of all that are not in subset (the Go
code materialises subset as a hash map and filters all through it). -/
def diff (all : List Int) (subset : List Int) : List Int :=
  all.filter (fun p => decide (p ∉ subset))

/-- One match outcome of the report loop in func main: the matched signature
together with its present and missing optional ports. -/
structure MatchOutcome where
  sig : Signature
  present : List Int
  missing : List Int
deriving DecidableEq

/-- The outcome the main loop computes for one matching signature. -/
def outcome (set : Finset Int) (sig : Signature) : MatchOutcome :=
  let present := presentOptional set sig.Optional
  ⟨sig, present, diff sig.Optional present⟩

/-- The report the main loop of func main assembles: one outcome per catalog
signature whose required ports are all present, in catalog order. -/
def buildReport (set : Finset Int) (catalog : List Signature) : List MatchOutcome :=
  catalog.filterMap (fun sig =>
    if hasAll set sig.Required then some (outcome set sig) else none)

/-- The line func main prints for one matching signature (per-match body of
the loop, including the optional-ports clauses). -/
def renderOutcome (o : MatchOutcome) (noColor : Bool) : String :=
  style "▶" green true false noColor ++ " "
    ++ style ("Possible " ++ o.sig.Name ++ " detected") cyan true false noColor
    ++ ": " ++ "Required ports " ++ joinPorts o.sig.Required green true false noColor
    ++ " are present"
    ++ (if 0 < o.sig.Optional.length then
          (if 0 < o.present.length then
            ", optional ports " ++ joinPorts o.present yellow true false noColor
              ++ " are also present" else "")
          ++ (if 0 < o.missing.length then
            ", optional ports " ++ joinPorts o.missing "" false true noColor
              ++ " are missing" else "")
        else "")
    ++ "\n"

/-- What func main writes to stdout after parsing, as a function of the parsed
open-port set: the empty-set short circuit, the per-match lines, the
zero-match message, the final newline. -/
def mainOutput (openPorts : Finset Int) (noColor : Bool) : String :=
  if openPorts = ∅ then
    style "No open ports found." yellow false false noColor ++ "\n"
  else
    String.join ((buildReport openPorts knownSignatures).map
        (fun o => renderOutcome o noColor))
      ++ (if buildReport openPorts knownSignatures = [] then
            style "No composite service signatures recognised." yellow false false noColor ++ "\n"
          else "")
      ++ "\n"

/-- Whitespace as Go's regexp engine reads the class backslash-s inside the
pattern of parseNmap: tab, newline, form feed, carriage return, space. -/
def isRe2Space (c : Char) : Bool :=
  c = ' ' || c = '\t' || c = '\n' || c = '\u000C' || c = '\r'

/-- Whitespace as Go's strings.TrimSpace (unicode.IsSpace) recognises it. -/
def goIsSpace (c : Char) : Bool :=
  c = ' ' || c = '\t' || c = '\n' || c = '\u000B' || c = '\u000C' || c = '\r'
    || c = '\u0085' || c = '\u00A0' || c = '\u1680'
    || c = '\u2000' || c = '\u2001' || c = '\u2002' || c = '\u2003'
    || c = '\u2004' || c = '\u2005' || c = '\u2006' || c = '\u2007'
    || c = '\u2008' || c = '\u2009' || c = '\u200A'
    || c = '\u2028' || c = '\u2029' || c = '\u202F' || c = '\u205F'
    || c = '\u3000'

/-- Embedding of strings.TrimSpace on a line's characters. -/
def goTrim (cs : List Char) : List Char :=
  ((cs.dropWhile goIsSpace).reverse.dropWhile goIsSpace).reverse

/-- Decimal value of a digit run, as the successful path of strconv.Atoi
accumulates it. -/
def natOfDigits (ds : List Char) : Nat :=
  ds.foldl (fun a c => a * 10 + (c.toNat - 48)) 0

/-- Embedding of strconv.Atoi on the captured digit run: parseNmap discards
the error, and on overflow Atoi hands back the largest 64-bit int, so the
value is clamped there. -/
def atoi (ds : List Char) : Int :=
  Int.ofNat (min (natOfDigits ds) (2 ^ 63 - 1))

/-- Embedding of the anchored regexp match of parseNmap on a trimmed line:
a nonempty digit run, then "/tcp", then nonempty whitespace, then "open";
the digit run is handed back.  The regexp's greedy runs are forced here:
the digit run is ended by the slash and the whitespace run by the letter o,
so the maximal-munch scan below is the one possible match. -/
def matchLine (cs : List Char) : Option (List Char) :=
  if (cs.takeWhile Char.isDigit).isEmpty then none
  else if (cs.dropWhile Char.isDigit).take 4 = "/tcp".toList then
    if (((cs.dropWhile Char.isDigit).drop 4).takeWhile isRe2Space).isEmpty then none
    else if (((cs.dropWhile Char.isDigit).drop 4).dropWhile isRe2Space).take 4
        = "open".toList then
      some (cs.takeWhile Char.isDigit)
    else none
  else none

/-- The port one line of the scan report contributes in parseNmap: the line is
trimmed, matched against the pattern, the digit run converted, and the port
kept only when positive. -/
def parsePort (line : String) : Option Int :=
  match matchLine (goTrim line.toList) with
  | some ds => if 0 < atoi ds then some (atoi ds) else none
  | none => none

/-- Embedding of func parseNmap, over the list of lines the scanner yields:
folds every line's contribution into the port set. -/
def parseNmapLines (lines : List String) : Finset Int :=
  lines.foldl (fun acc line =>
    match parsePort line with
    | some p => insert p acc
    | none => acc) ∅

/-- Following the spec's words for the input contract: the trimmed line
matches the pattern "p/tcp", whitespace, "open" at its start, with p printed
as the integer's own digits.  Stated to compare with what parseNmap does. -/
def specLineMatches (p : Int) (line : String) : Prop :=
  ∃ ws rest, goTrim line.toList
      = (toString p).toList ++ "/tcp".toList ++ ws ++ "open".toList ++ rest
    ∧ ws ≠ [] ∧ ∀ c ∈ ws, isRe2Space c = true

/-- The line pattern parseNmap actually accepts, stated declaratively: the
trimmed line starts with a nonempty digit run (leading zeros allowed), then
"/tcp", then nonempty whitespace, then "open", and the digit run's clamped
decimal value is p. -/
def codeLineMatches (p : Int) (line : String) : Prop :=
  ∃ ds ws rest, goTrim line.toList
      = ds ++ "/tcp".toList ++ ws ++ "open".toList ++ rest
    ∧ ds ≠ [] ∧ (∀ c ∈ ds, c.isDigit = true)
    ∧ ws ≠ [] ∧ (∀ c ∈ ws, isRe2Space c = true)
    ∧ atoi ds = p


/-- C1: hasAll, the matches operation, returns true iff every port of the signature's
Required list is a member of the port set; an empty Required list gives true
(vacuous truth), and over the empty port set it is true exactly for an empty
Required list. -/
theorem hasAll_iff_required_subset (P : Finset Int) (S : Signature) :
    (hasAll P S.Required = true ↔ ∀ p ∈ S.Required, p ∈ P)
    ∧ (S.Required = [] → hasAll P S.Required = true)
    ∧ (P = ∅ → (hasAll P S.Required = true ↔ S.Required = [])) := by
  refine ⟨by simp [hasAll], ?_, ?_⟩
  · intro h; simp [hasAll, h]
  · intro h
    subst h
    constructor
    · intro hall
      cases hR : S.Required with
      | nil => rfl
      | cons a t =>
        exfalso
        have hmem : ∀ p ∈ S.Required, p ∈ (∅ : Finset Int) := by
          simpa [hasAll] using hall
        simpa using hmem a (by simp [hR])
    · intro h; simp [hasAll, h]

theorem hasAll_iff_required_subset_witness :
    hasAll (∅ : Finset Int) (Signature.mk "X" [] []).Required = true :=
  (hasAll_iff_required_subset ∅ ⟨"X", [], []⟩).2.1 rfl

/-- C2: presentOptional and the missing list diff computes from it partition the
optional list exactly, for every port set and optional list including empty ones:
their union equals the optional list as a set and their intersection is empty. -/
theorem present_missing_partition (P : Finset Int) (O : List Int) :
    (presentOptional P O).toFinset ∪ (diff O (presentOptional P O)).toFinset = O.toFinset
    ∧ (presentOptional P O).toFinset ∩ (diff O (presentOptional P O)).toFinset = ∅ := by
  constructor
  · ext p
    simp only [Finset.mem_union, List.mem_toFinset, presentOptional, diff, List.mem_filter,
      decide_eq_true_eq]
    tauto
  · ext p
    simp only [Finset.mem_inter, List.mem_toFinset, presentOptional, diff, List.mem_filter,
      decide_eq_true_eq, Finset.not_mem_empty, iff_false]
    tauto

/-- C9: presentOptional returns an order-preserving subsequence (a sublist) of the
optional list, holding exactly its elements that are in the port set; diff returns
an order-preserving sublist of its first argument, holding exactly the elements
not in its second argument; neither function reorders its output. -/
theorem presentOptional_diff_sublists (P : Finset Int) (O s : List Int) :
    (presentOptional P O).Sublist O
    ∧ (diff O s).Sublist O
    ∧ (∀ p : Int, p ∈ presentOptional P O ↔ p ∈ O ∧ p ∈ P)
    ∧ (∀ p : Int, p ∈ diff O s ↔ p ∈ O ∧ p ∉ s) := by
  refine ⟨List.filter_sublist _, List.filter_sublist _, ?_, ?_⟩
  · intro p; simp [presentOptional]
  · intro p; simp [diff]

/-- C8: building the report is deterministic: two invocations on the same port set
and the same catalog yield identical, value-equal outcome sequences. -/
theorem buildReport_deterministic (P₁ P₂ : Finset Int) (c₁ c₂ : List Signature)
    (h₁ : P₁ = P₂) (h₂ : c₁ = c₂) : buildReport P₁ c₁ = buildReport P₂ c₂ := by
  rw [h₁, h₂]

theorem buildReport_deterministic_witness :
    buildReport ({139, 445} : Finset Int) knownSignatures
      = buildReport ({139, 445} : Finset Int) knownSignatures :=
  buildReport_deterministic _ _ _ _ rfl rfl

/-- C7: every signature of the built-in catalog has a non-empty required list, and
for every signature of the catalog no required port appears among its optional
ports. -/
theorem catalog_invariants (sig : Signature) (h : sig ∈ knownSignatures) :
    sig.Required ≠ [] ∧ ∀ p ∈ sig.Required, p ∉ sig.Optional :=
  (by decide :
    ∀ s ∈ knownSignatures, s.Required ≠ [] ∧ ∀ p ∈ s.Required, p ∉ s.Optional) sig h

theorem catalog_invariants_witness :
    (⟨"SMB / NetBIOS file share", [139, 445], []⟩ : Signature).Required ≠ []
    ∧ ∀ p ∈ (⟨"SMB / NetBIOS file share", [139, 445], []⟩ : Signature).Required,
        p ∉ (⟨"SMB / NetBIOS file share", [139, 445], []⟩ : Signature).Optional :=
  catalog_invariants ⟨"SMB / NetBIOS file share", [139, 445], []⟩ (by decide)

/-- C3 counterexample: the Redis signature of the catalog declares its optional
ports as the list holding 26379 before 16379; over a port set holding both,
presentOptional returns that list unchanged, which is not in ascending numeric
order, refuting the claim that presentOptional returns ascending order. -/
theorem presentOptional_declaration_order_cex :
    (⟨"Redis", [6379], [26379, 16379]⟩ : Signature) ∈ knownSignatures
    ∧ presentOptional ({6379, 16379, 26379} : Finset Int) [26379, 16379] = [26379, 16379]
    ∧ ¬ List.Sorted (fun a b => a ≤ b)
        (presentOptional ({6379, 16379, 26379} : Finset Int) [26379, 16379]) :=
  ⟨by decide, by decide, by decide⟩

/-- C3 amended: every port sequence produced for output passes through joinPorts,
which first sorts it: the list joinPorts renders is the ascending reordering of
its input, so the printed present, missing and required sequences are ascending
regardless of catalog declaration order; presentOptional itself keeps catalog
declaration order. -/
theorem output_lists_sorted (ports : List Int) (colour : String) (bo fo nc : Bool) :
    List.Sorted (fun a b => a ≤ b) (sortPorts ports)
    ∧ (sortPorts ports).Perm ports
    ∧ joinPorts ports colour bo fo nc
      = String.intercalate ", "
          ((sortPorts ports).map (fun p => style (toString p) colour bo fo nc)) :=
  ⟨List.sorted_insertionSort _ ports, List.perm_insertionSort _ ports, rfl⟩


theorem filterMap_guard_eq_map_filter {α β : Type} (f : α → β) (q : α → Bool) (l : List α) :
    (l.filterMap fun s => if q s then some (f s) else none) = (l.filter q).map f := by
  induction l with
  | nil => rfl
  | cons a t ih =>
    by_cases h : q a <;> simp [List.filterMap_cons, List.filter_cons, h, ih]

/-- C4: for a non-empty port set, the report holds one outcome per matching
signature in catalog order: the outcome list equals the catalog filtered to the
matching signatures and mapped to outcomes, projecting outcomes back to their
signatures yields a sublist of the catalog (so non-matching signatures leave no
placeholder), and a matching signature with an empty optional list yields an
outcome with empty present and missing lists. -/
theorem buildReport_catalog_order (P : Finset Int) (_h : P ≠ ∅) :
    buildReport P knownSignatures
      = (knownSignatures.filter (fun sig => hasAll P sig.Required)).map (outcome P)
    ∧ ((buildReport P knownSignatures).map MatchOutcome.sig).Sublist knownSignatures
    ∧ ∀ sig, hasAll P sig.Required = true → sig.Optional = [] →
        outcome P sig = ⟨sig, [], []⟩ := by
  have e : buildReport P knownSignatures
      = (knownSignatures.filter (fun sig => hasAll P sig.Required)).map (outcome P) :=
    filterMap_guard_eq_map_filter _ _ _
  refine ⟨e, ?_, ?_⟩
  · rw [e, List.map_map]
    have : (MatchOutcome.sig ∘ outcome P) = id := rfl
    rw [this, List.map_id]
    exact List.filter_sublist _
  · intro sig _ hopt
    simp [outcome, hopt, presentOptional, diff]

theorem buildReport_catalog_order_witness :
    buildReport ({139, 445} : Finset Int) knownSignatures
      = (knownSignatures.filter
          (fun sig => hasAll ({139, 445} : Finset Int) sig.Required)).map
          (outcome ({139, 445} : Finset Int)) :=
  (buildReport_catalog_order {139, 445} (by decide)).1

/-- C5: the two empty-result cases are signalled distinctly: for an empty port set
main short-circuits to the no-open-ports message before touching the catalog,
while for a non-empty port set whose report is empty it prints the
no-signatures-recognised message, and the two outputs differ. -/
theorem empty_vs_zero_match_signals (P₁ P₂ : Finset Int) (nc : Bool)
    (h₁ : P₁ = ∅) (h₂ : P₂ ≠ ∅) (h₃ : buildReport P₂ knownSignatures = []) :
    mainOutput P₁ nc = style "No open ports found." yellow false false nc ++ "\n"
    ∧ mainOutput P₂ nc
      = style "No composite service signatures recognised." yellow false false nc
          ++ "\n" ++ "\n"
    ∧ mainOutput P₁ nc ≠ mainOutput P₂ nc := by
  subst h₁
  have e₁ : mainOutput ∅ nc = style "No open ports found." yellow false false nc ++ "\n" := by
    simp [mainOutput]
  have e₂ : mainOutput P₂ nc
      = style "No composite service signatures recognised." yellow false false nc
          ++ "\n" ++ "\n" := by
    simp only [mainOutput, if_neg h₂, h₃, List.map_nil, String.join, List.foldl_nil, if_pos]
    have : String.join [] = "" := rfl
    simp [String.join]
  refine ⟨e₁, e₂, ?_⟩
  rw [e₁, e₂]
  cases nc <;> decide

theorem empty_vs_zero_match_signals_witness :
    mainOutput (∅ : Finset Int) true ≠ mainOutput ({81} : Finset Int) true :=
  (empty_vs_zero_match_signals ∅ {81} true rfl (by decide) (by decide)).2.2


theorem takeWhile_append_cons (p : Char → Bool) (l : List Char) (a : Char) (r : List Char)
    (hl : ∀ c ∈ l, p c = true) (ha : p a = false) :
    (l ++ a :: r).takeWhile p = l := by
  induction l with
  | nil => simp [List.takeWhile_cons, ha]
  | cons x t ih =>
    have hx : p x = true := hl x (by simp)
    have ih' := ih (fun c hc => hl c (by simp [hc]))
    simp [List.takeWhile_cons, hx, ih']

theorem dropWhile_append_cons (p : Char → Bool) (l : List Char) (a : Char) (r : List Char)
    (hl : ∀ c ∈ l, p c = true) (ha : p a = false) :
    (l ++ a :: r).dropWhile p = a :: r := by
  induction l with
  | nil => simp [List.dropWhile_cons, ha]
  | cons x t ih =>
    have hx : p x = true := hl x (by simp)
    have ih' := ih (fun c hc => hl c (by simp [hc]))
    simp [List.dropWhile_cons, hx, ih']

theorem matchLine_eq_some_iff (cs ds : List Char) :
    matchLine cs = some ds ↔
      ∃ ws rest, cs = ds ++ "/tcp".toList ++ ws ++ "open".toList ++ rest
        ∧ ds ≠ [] ∧ (∀ c ∈ ds, c.isDigit = true)
        ∧ ws ≠ [] ∧ (∀ c ∈ ws, isRe2Space c = true) := by
  constructor
  · intro h
    unfold matchLine at h
    split_ifs at h with h1 h2 h3 h4 <;> cases h
    refine ⟨((cs.dropWhile Char.isDigit).drop 4).takeWhile isRe2Space,
      (((cs.dropWhile Char.isDigit).drop 4).dropWhile isRe2Space).drop 4, ?_, ?_, ?_, ?_, ?_⟩
    · conv_lhs => rw [← List.takeWhile_append_dropWhile (p := Char.isDigit) (l := cs)]
      rw [List.append_assoc, List.append_assoc, List.append_assoc]
      congr 1
      conv_lhs => rw [← List.take_append_drop 4 (cs.dropWhile Char.isDigit), h2]
      congr 1
      conv_lhs =>
        rw [← List.takeWhile_append_dropWhile (p := isRe2Space)
          (l := (cs.dropWhile Char.isDigit).drop 4)]
      congr 1
      conv_lhs =>
        rw [← List.take_append_drop 4
          (((cs.dropWhile Char.isDigit).drop 4).dropWhile isRe2Space), h4]
    · simpa [List.isEmpty_iff] using h1
    · intro c hc; exact List.mem_takeWhile_imp hc
    · simpa [List.isEmpty_iff] using h3
    · intro c hc; exact List.mem_takeWhile_imp hc
  · rintro ⟨ws, rest, hcs, hds, hdig, hws, hsp⟩
    have htcp : "/tcp".toList = '/' :: "tcp".toList := rfl
    have hopen : "open".toList = 'o' :: "pen".toList := rfl
    have hshape : cs = ds ++ '/' :: ("tcp".toList ++ (ws ++ "open".toList ++ rest)) := by
      rw [hcs, htcp]; simp [List.append_assoc]
    have htake : cs.takeWhile Char.isDigit = ds := by
      rw [hshape]
      exact takeWhile_append_cons _ _ _ _ hdig (by decide)
    have hdrop : cs.dropWhile Char.isDigit
        = '/' :: ("tcp".toList ++ (ws ++ "open".toList ++ rest)) := by
      rw [hshape]
      exact dropWhile_append_cons _ _ _ _ hdig (by decide)
    have hdrop' : cs.dropWhile Char.isDigit = "/tcp".toList ++ (ws ++ "open".toList ++ rest) := by
      rw [hdrop, htcp]; simp
    have hshape2 : ws ++ "open".toList ++ rest = ws ++ 'o' :: ("pen".toList ++ rest) := by
      rw [hopen]; simp
    have hwtake : (ws ++ "open".toList ++ rest).takeWhile isRe2Space = ws := by
      rw [hshape2]
      exact takeWhile_append_cons _ _ _ _ hsp (by decide)
    have hwdrop : (ws ++ "open".toList ++ rest).dropWhile isRe2Space
        = "open".toList ++ rest := by
      rw [hshape2]
      rw [dropWhile_append_cons _ _ _ _ hsp (by decide), hopen]
      simp
    unfold matchLine
    rw [htake, hdrop']
    rw [if_neg (by simpa [List.isEmpty_iff] using hds)]
    rw [if_pos (by rw [List.take_left' (by rfl)])]
    rw [List.drop_left' (by rfl : ("/tcp".toList).length = 4)]
    rw [hwtake, hwdrop]
    rw [if_neg (by simpa [List.isEmpty_iff] using hws)]
    rw [if_pos (by rw [List.take_left' (by rfl)])]

theorem parsePort_of_match_some (line : String) (ds : List Char)
    (hm : matchLine (goTrim line.toList) = some ds) :
    parsePort line = if 0 < atoi ds then some (atoi ds) else none := by
  unfold parsePort
  rw [hm]

theorem parsePort_of_match_none (line : String)
    (hm : matchLine (goTrim line.toList) = none) :
    parsePort line = none := by
  unfold parsePort
  rw [hm]

theorem parsePort_eq_some_iff (line : String) (p : Int) :
    parsePort line = some p ↔ 0 < p ∧ codeLineMatches p line := by
  constructor
  · intro h
    cases hm : matchLine (goTrim line.toList) with
    | none => rw [parsePort_of_match_none line hm] at h; cases h
    | some ds =>
      rw [parsePort_of_match_some line ds hm] at h
      by_cases hp : 0 < atoi ds
      · rw [if_pos hp] at h
        injection h with h
        subst h
        obtain ⟨ws, rest, hcs, hd, hdig, hw, hsp⟩ := (matchLine_eq_some_iff _ ds).1 hm
        exact ⟨hp, ds, ws, rest, hcs, hd, hdig, hw, hsp, rfl⟩
      · rw [if_neg hp] at h; cases h
  · rintro ⟨hp, ds, ws, rest, hcs, hd, hdig, hw, hsp, hval⟩
    have hm : matchLine (goTrim line.toList) = some ds :=
      (matchLine_eq_some_iff _ ds).2 ⟨ws, rest, hcs, hd, hdig, hw, hsp⟩
    rw [parsePort_of_match_some line ds hm, hval, if_pos (hval ▸ hp)]

theorem mem_parsePort_foldl (lines : List String) (acc : Finset Int) (p : Int) :
    p ∈ lines.foldl (fun acc line =>
        match parsePort line with
        | some q => insert q acc
        | none => acc) acc
      ↔ p ∈ acc ∨ ∃ line ∈ lines, parsePort line = some p := by
  induction lines generalizing acc with
  | nil => simp
  | cons a t ih =>
    simp only [List.foldl_cons]
    rw [ih]
    cases hp : parsePort a with
    | none =>
      simp only [List.mem_cons]
      constructor
      · rintro (h | ⟨l, hl, hs⟩)
        · exact Or.inl h
        · exact Or.inr ⟨l, Or.inr hl, hs⟩
      · rintro (h | ⟨l, (rfl | hl), hs⟩)
        · exact Or.inl h
        · rw [hp] at hs; cases hs
        · exact Or.inr ⟨l, hl, hs⟩
    | some q =>
      simp only [Finset.mem_insert, List.mem_cons]
      constructor
      · rintro ((rfl | h) | ⟨l, hl, hs⟩)
        · exact Or.inr ⟨a, Or.inl rfl, by rw [hp]⟩
        · exact Or.inl h
        · exact Or.inr ⟨l, Or.inr hl, hs⟩
      · rintro (h | ⟨l, (rfl | hl), hs⟩)
        · exact Or.inl (Or.inr h)
        · rw [hp] at hs
          injection hs with hs
          exact Or.inl (Or.inl hs.symm)
        · exact Or.inr ⟨l, hl, hs⟩

theorem mem_parseNmapLines (lines : List String) (p : Int) :
    p ∈ parseNmapLines lines ↔ ∃ line ∈ lines, parsePort line = some p := by
  unfold parseNmapLines
  rw [mem_parsePort_foldl]
  simp

/-- C6 amended: the parsed port set is exactly the set of strictly positive
integers p for which some line of the report, after trimming surrounding
whitespace, begins with a nonempty digit run (leading zeros allowed) whose
decimal value, clamped to the largest signed 64-bit value, equals p, followed by
/tcp, then whitespace, then open (case-sensitive); every other line contributes
nothing and causes no error. -/
theorem parseNmap_characterization (lines : List String) (p : Int) :
    p ∈ parseNmapLines lines ↔ 0 < p ∧ ∃ line ∈ lines, codeLineMatches p line := by
  rw [mem_parseNmapLines]
  constructor
  · rintro ⟨line, hl, hs⟩
    obtain ⟨hp, hc⟩ := (parsePort_eq_some_iff line p).1 hs
    exact ⟨hp, line, hl, hc⟩
  · rintro ⟨hp, line, hl, hc⟩
    exact ⟨line, hl, (parsePort_eq_some_iff line p).2 ⟨hp, hc⟩⟩

theorem parseNmap_characterization_witness :
    (0:Int) < 22 ∧ ∃ line ∈ ["22/tcp open ssh"], codeLineMatches 22 line :=
  (parseNmap_characterization ["22/tcp open ssh"] 22).1 (by decide)

/-- C6 counterexample: the line 0/tcp open satisfies the spec's line pattern for
the integer 0, with 0 printed as its own digits, yet parseNmap returns the empty
port set on this input: its positivity guard drops the port, so the claimed set
equality fails here. -/
theorem parseNmap_spec_pattern_cex :
    parseNmapLines ["0/tcp open"] = ∅ ∧ specLineMatches 0 "0/tcp open" := by
  refine ⟨by decide, ⟨[' '], [], ?_, by decide, by decide⟩⟩
  decide

/-- C10: every port in the parsed set is strictly positive and appears at most
once (the underlying multiset has no duplicates); the line 0/tcp open matches
the line pattern but is excluded by the positivity guard, while ports above
65535 such as 70000 are accepted when their line matches. -/
theorem parseNmap_ports_positive :
    (∀ (lines : List String), ∀ p ∈ parseNmapLines lines, 0 < p)
    ∧ (∀ (lines : List String), (parseNmapLines lines).val.Nodup)
    ∧ parseNmapLines ["0/tcp open"] = ∅
    ∧ (70000 : Int) ∈ parseNmapLines ["70000/tcp open"] := by
  refine ⟨?_, ?_, by decide, by decide⟩
  · intro lines p hp
    obtain ⟨line, _, hsome⟩ := (mem_parseNmapLines lines p).1 hp
    exact ((parsePort_eq_some_iff line p).1 hsome).1
  · intro lines
    exact (parseNmapLines lines).nodup

end Nsight
